import Mathlib

/-!
Timed quiz engine (`01-quiz`)

A shallow embedding of `question/question.go` and `quiz/quiz.go`.

* Go strings are Lean `String`s; text written with `fmt.Printf` / `fmt.Println`
  is collected, one entry per call, in a list of strings.
* Go `int` counters are `Int`.
* The console, the clock and the scheduler are inputs: for every question the
  environment supplies a `Response` (what `ReadString` returns, how long the
  answer takes to reach the loop, and how the scheduler resolves the two
  races that the code leaves open).
-/

namespace Quiz01

/-! ## Library functions used by the source -/

/-- Scan of `strings.Replace` for a non-empty `old`: the first argument counts
the characters of a matched occurrence of `old` that are still to be skipped. -/
def stringsReplaceScan (old new : List Char) : Nat → List Char → List Char
  | _, [] => []
  | skip + 1, _ :: cs => stringsReplaceScan old new skip cs
  | 0, c :: cs =>
    if old.isPrefixOf (c :: cs) then
      new ++ stringsReplaceScan old new (old.length - 1) cs
    else
      c :: stringsReplaceScan old new 0 cs

/-- Go `strings.Replace(s, old, new, -1)`: every non-overlapping occurrence of
`old` in `s`, taken from the left, is replaced by `new`; for an empty `old`,
`new` is inserted before every character and at the end. -/
def stringsReplaceAll (s old new : String) : String :=
  if old = new then s
  else if old.data = [] then String.mk (new.data ++ s.data.flatMap (fun c => c :: new.data))
  else String.mk (stringsReplaceScan old.data new.data 0 s.data)

/-! ## `question.go` -/

/-- Go `type Question struct`. -/
structure Question where
  question : String
  answer : String
  response : String
  correct : Bool
  asked : Bool
deriving DecidableEq

/-- Go `NewQuestion`: `new(Question)` zeroes every field, then the prompt and
the expected answer are stored. -/
def NewQuestion (question answer : String) : Question :=
  { question := question, answer := answer, response := "", correct := false, asked := false }

/-- Go `(*Question).UserInput`, where `text` is what `reader.ReadString` gave
back (its error is discarded by the source). -/
def Question.UserInput (q : Question) (text : String) : Question :=
  let text := stringsReplaceAll text "\n" ""
  let text := stringsReplaceAll text "\r" ""
  { q with response := text }

/-- Text written by the `fmt.Printf("%s = ? ", q.question)` of `Ask`. -/
def Question.askPrompt (q : Question) : String :=
  q.question ++ " = ? "

/-- Go `(*Question).Ask` up to the point where it blocks inside `UserInput`:
the prompt has been printed and `q.asked = true` has been executed. -/
def Question.askBegin (q : Question) : Question :=
  { q with asked := true }

/-- Go `(*Question).Ask` run to completion on the line `text`: the record
afterwards and the returned score. -/
def Question.Ask (q : Question) (text : String) : Question × Int :=
  let q := q.askBegin
  let q := q.UserInput text
  if q.response = q.answer then
    ({ q with correct := true }, 1)
  else
    (q, 0)

/-- Go `(*Question).ShowCorrect`: the lines it prints (none or one). -/
def Question.ShowCorrect (q : Question) : List String :=
  if q.asked && !q.correct then
    [" '" ++ q.question ++ "' is '" ++ q.answer ++ "'; you said '" ++ q.response ++ "'"]
  else
    []

/-- The spec's wording of the normalisation: only the trailing carriage-return
and line-feed characters are stripped. -/
def specStripTrailingCRLF (text : String) : String :=
  String.mk (text.data.reverse.dropWhile (fun c => c = '\r' || c = '\n')).reverse

/-! ## `quiz.go` -/

/-- Go `type Quiz struct`. -/
structure Quiz where
  questions : List Question
  correct : Int
  asked : Int
deriving DecidableEq

/-- Go `(*Quiz).addQuestion`. -/
def Quiz.addQuestion (qz : Quiz) (q a : String) : Quiz :=
  { qz with questions := qz.questions ++ [NewQuestion q a] }

/-- The read loop of Go `(*Quiz).Import` over the rows the CSV reader yields,
starting from the zero value of `Quiz`. -/
def Quiz.importRows (rows : List (String × String)) : Quiz :=
  rows.foldl (fun qz row => qz.addQuestion row.1 row.2) { questions := [], correct := 0, asked := 0 }

/-- What the environment contributes to one iteration of the loop of `Play`. -/
structure Response where
  /-- nanoseconds from the start of the `select` until the score of the
  question is ready to be received -/
  latency : Nat
  /-- the line `ReadString` returns to `UserInput` -/
  text : String
  /-- choice of `select` when both of its cases are ready at the same instant -/
  timerWinsTie : Bool
  /-- whether the goroutine started by `go q.Ask()` has reached its read when
  the timer case is taken -/
  askStarted : Bool
deriving DecidableEq

/-- Go `time.Second` as a `time.Duration` (nanoseconds). -/
def Second : Int := 1000000000

/-- Two's-complement wrap-around of 64-bit signed arithmetic. -/
def wrapInt64 (x : Int) : Int :=
  (x + 2 ^ 63) % 2 ^ 64 - 2 ^ 63

/-- Go `*time.Timer`, reduced to the instant, in nanoseconds after its
creation, from which a value can be received from its channel `C`. -/
structure Timer where
  fireAt : Nat
deriving DecidableEq

/-- Go `time.NewTimer(d)`: the timer fires once `d` has elapsed, at once when
`d` is zero or negative. -/
def NewTimer (d : Int) : Timer :=
  { fireAt := d.toNat }

/-- The two cases of the `select` in the loop of `Play`. -/
inductive SelectCase where
  | chScore
  | timerC
deriving DecidableEq

/-- The case the `select` of `Play` takes when it starts at instant `now`:
the one that is ready first, and the choice of the scheduler when both are
ready together. A fired timer stays ready until it is received from. -/
def selectCase (timer : Timer) (now : Nat) (r : Response) : SelectCase :=
  let scoreAt := now + r.latency
  let timerAt := max timer.fireAt now
  if scoreAt < timerAt then SelectCase.chScore
  else if timerAt < scoreAt then SelectCase.timerC
  else if r.timerWinsTie then SelectCase.timerC
  else SelectCase.chScore

/-- Modelled from the spec: the channel field `ChScore` that the loop of `Play`
receives from is not declared in `question.go`. By the spec the runner started
with `go q.Ask()` emits its score increment, the value `Ask` returns, on that
channel once scoring finishes. -/
def Question.runAsk (q : Question) (text : String) : Question × Int :=
  q.Ask text

/-- State of `Play` between two iterations of `QuizLoop`. -/
structure PlayState where
  qz : Quiz
  /-- number of questions the `range` has handed to the loop body so far -/
  idx : Nat
  /-- nanoseconds elapsed since the timer was created -/
  now : Nat
  /-- text written so far, one entry per `fmt` call, verbatim -/
  out : List String
  /-- set once `break QuizLoop` has been executed -/
  stopped : Bool
deriving DecidableEq

/-- One iteration of `QuizLoop` (nothing happens once the range is exhausted
or the loop has been left). -/
def Quiz.loopBody (timer : Timer) (input : Nat → Response) (s : PlayState) : PlayState :=
  if s.stopped then s
  else
    match s.qz.questions[s.idx]? with
    | none => s
    | some q =>
      let r := input s.idx
      let asked := s.qz.asked + 1
      let out := s.out ++ [toString asked ++ ": "]
      match selectCase timer s.now r with
      | SelectCase.chScore =>
        let res := q.runAsk r.text
        { qz := { questions := s.qz.questions.set s.idx res.1,
                  correct := s.qz.correct + res.2,
                  asked := asked },
          idx := s.idx + 1,
          now := s.now + r.latency,
          out := out ++ [q.askPrompt],
          stopped := false }
      | SelectCase.timerC =>
        { qz := { questions :=
                    if r.askStarted then s.qz.questions.set s.idx q.askBegin
                    else s.qz.questions,
                  correct := s.qz.correct,
                  asked := asked },
          idx := s.idx + 1,
          now := max timer.fireAt s.now,
          out := (if r.askStarted then out ++ [q.askPrompt] else out)
                    ++ ["\nSorry, your time has run out!\n"],
          stopped := true }

/-- The timer created by `Play` before its loop (the limit is raised to the
number of questions only when it is positive). -/
def Quiz.playTimer (qz : Quiz) (timeLimit : Int) : Timer :=
  let nq : Int := qz.questions.length
  let timeLimit := if timeLimit > 0 then (if timeLimit < nq then nq else timeLimit) else timeLimit
  NewTimer (wrapInt64 (timeLimit * Second))

/-- State of `Play` when it enters `QuizLoop`. -/
def Quiz.playStart (qz : Quiz) (timeLimit : Int) : PlayState :=
  let nq : Int := qz.questions.length
  let out := ["Please answer the following " ++ toString nq ++ " questions:\n"]
  let out :=
    if timeLimit > 0 then
      let timeLimit := if timeLimit < nq then nq else timeLimit
      out ++ ["(You have " ++ toString timeLimit ++ " seconds to finish!)\n"]
    else out
  { qz := qz, idx := 0, now := 0, out := out, stopped := false }

/-- State of `Play` after `n` iterations of `QuizLoop`. -/
def Quiz.playAfter (qz : Quiz) (timeLimit : Int) (input : Nat → Response) (n : Nat) : PlayState :=
  Nat.iterate (Quiz.loopBody (qz.playTimer timeLimit) input) n (qz.playStart timeLimit)

/-- Go `(*Quiz).Play`: the loop ranges over the `len(qz.questions)` questions. -/
def Quiz.Play (qz : Quiz) (timeLimit : Int) (input : Nat → Response) : PlayState :=
  qz.playAfter timeLimit input qz.questions.length

/-- The review at the end of `Score`: the heading and the `ShowCorrect` of
every question in turn. -/
def Quiz.showReview (qz : Quiz) (out : List String) : List String :=
  qz.questions.foldl (fun out q => out ++ q.ShowCorrect)
    (out ++ ["These are the correct answers for the ones you got wrong:"])

/-- Go `(*Quiz).Score`: the lines it prints (every `fmt` call of `Score` and of
`ShowCorrect` writes one full line; the entries omit the final newline). -/
def Quiz.Score (qz : Quiz) : List String :=
  let nq : Int := qz.questions.length
  let out := ["You scored " ++ toString qz.correct ++ " out of " ++ toString nq]
  if qz.correct = nq then
    out ++ ["Congratulations! You scored 100% correct!"]
  else if qz.asked < nq then
    let out := out ++ ["You only answered " ++ toString qz.asked ++ " questions!"]
    if qz.correct = qz.asked then
      out ++ ["Of the ones you were asked, you got all correct!"]
    else
      qz.showReview out
  else
    qz.showReview out

/-- The callback handed to `rand.Shuffle`: the two entries are exchanged; an
index outside the slice is a run-time panic (`none`). -/
def swapQuestions (qs : List Question) (i j : Nat) : Option (List Question) :=
  match qs[i]?, qs[j]? with
  | some a, some b => some ((qs.set i b).set j a)
  | _, _ => none

/-- The callback applied to a sequence of index pairs, in order. -/
def applySwaps : List (Nat × Nat) → List Question → Option (List Question)
  | [], qs => some qs
  | (i, j) :: rest, qs => (swapQuestions qs i j).bind (applySwaps rest)

/-- Index pairs Go `rand.Shuffle(n, swap)` passes to `swap`: for `i` from `n - 1`
down to `1`, the pair `(i, j)` with `j` drawn from `0 .. i`; `draw i` is the
random number used at step `i`. The argument is `n - 1`. -/
def shufflePairs (draw : Nat → Nat) : Nat → List (Nat × Nat)
  | 0 => []
  | i + 1 => (i + 1, draw (i + 1) % (i + 2)) :: shufflePairs draw i

/-- Go `(*Quiz).shuffleQuestions`, the random numbers being given by `draw`. -/
def Quiz.shuffleQuestions (qz : Quiz) (draw : Nat → Nat) : Option Quiz :=
  (applySwaps (shufflePairs draw (qz.questions.length - 1)) qz.questions).map
    (fun qs => { qz with questions := qs })

/-- Responses given as a list; past its end the input is exhausted and
`ReadString` returns the empty text at once. -/
def responses (rs : List Response) (i : Nat) : Response :=
  rs.getD i { latency := 0, text := "", timerWinsTie := false, askStarted := true }

/-- Loop invariant of `QuizLoop`, for the state reached after `j` iterations
of a game started on the quiz `qz0`. -/
def PlayInv (qz0 : Quiz) (j : Nat) (s : PlayState) : Prop :=
  s.qz.questions.length = qz0.questions.length
  ∧ s.idx ≤ qz0.questions.length
  ∧ s.idx ≤ j
  ∧ (s.stopped = false → s.idx = min j qz0.questions.length)
  ∧ (s.stopped = true → 1 ≤ s.idx)
  ∧ s.qz.asked = qz0.asked + s.idx
  ∧ qz0.correct ≤ s.qz.correct
  ∧ s.qz.correct + (if s.stopped then 1 else 0) ≤ qz0.correct + s.idx
  ∧ ∀ i, s.idx ≤ i → s.qz.questions[i]? = qz0.questions[i]?

/-! ## Normalisation of the response -/

theorem stringsReplaceScan_single (c : Char) (l : List Char) :
    stringsReplaceScan [c] [] 0 l = l.filter (fun d => d != c) := by
  induction l with
  | nil => simp [stringsReplaceScan]
  | cons d cs ih =>
    by_cases h : c = d
    · subst h
      simp [stringsReplaceScan, List.isPrefixOf, ih]
    · have h2 : d ≠ c := fun e => h e.symm
      simp [stringsReplaceScan, List.isPrefixOf, ih, h, h2]

theorem UserInput_response (q : Question) (text : String) :
    (q.UserInput text).response
      = String.mk (text.data.filter (fun c => c != '\n' && c != '\r')) := by
  have h1 : ("\n" : String) ≠ "" := by decide
  have h2 : ("\r" : String) ≠ "" := by decide
  have d1 : ("\n" : String).data = ['\n'] := rfl
  have d2 : ("\r" : String).data = ['\r'] := rfl
  have d3 : ("" : String).data = [] := rfl
  simp only [Question.UserInput, stringsReplaceAll, if_neg h1, if_neg h2, d1, d2, d3]
  simp [stringsReplaceScan_single, List.filter_filter, Bool.and_comm]

theorem filter_of_trailing_only (l : List Char)
    (h : ∀ c ∈ (l.reverse.dropWhile (fun c => c = '\r' || c = '\n')).reverse,
      c ≠ '\r' ∧ c ≠ '\n') :
    l.filter (fun c => c != '\n' && c != '\r')
      = (l.reverse.dropWhile (fun c => c = '\r' || c = '\n')).reverse := by
  have split : l = (l.reverse.dropWhile (fun c => c = '\r' || c = '\n')).reverse
      ++ (l.reverse.takeWhile (fun c => c = '\r' || c = '\n')).reverse := by
    rw [← List.reverse_append, List.takeWhile_append_dropWhile, List.reverse_reverse]
  have tail : (l.reverse.takeWhile (fun c => c = '\r' || c = '\n')).reverse.filter
      (fun c => c != '\n' && c != '\r') = [] := by
    rw [List.filter_eq_nil_iff]
    intro c hc
    have hp := List.mem_takeWhile_imp (List.mem_reverse.mp hc)
    simp only [Bool.or_eq_true, decide_eq_true_eq] at hp
    rcases hp with hp | hp <;> simp [hp]
  have body : (l.reverse.dropWhile (fun c => c = '\r' || c = '\n')).reverse.filter
      (fun c => c != '\n' && c != '\r')
      = (l.reverse.dropWhile (fun c => c = '\r' || c = '\n')).reverse := by
    rw [List.filter_eq_self]
    intro c hc
    have := h c hc
    simp [this.1, this.2]
  conv_lhs => rw [split]
  rw [List.filter_append, tail, body, List.append_nil]

/-- C5 (code): `specStripTrailingCRLF` keeps a carriage return that is not at
the end of the line, `UserInput` removes it; the line `a<CR>b<LF>` is stored
as `ab` and is scored as a match of the expected answer `ab`. -/
theorem UserInput_drops_inner_CR :
    ((NewQuestion "q" "ab").UserInput "a\rb\n").response = "ab"
    ∧ specStripTrailingCRLF "a\rb\n" = "a\rb"
    ∧ ((NewQuestion "q" "ab").UserInput "a\rb\n").response ≠ specStripTrailingCRLF "a\rb\n"
    ∧ ((NewQuestion "q" "ab").Ask "a\rb\n").2 = 1 := by
  decide

/-- C5 (amended): the response stored by `UserInput` is the text read with
every carriage-return and every line-feed character removed, wherever it
stands, the other characters being kept in order and the other fields of the
record untouched; when the text has such characters only at its end this is
the text with its trailing CR/LF stripped. Matching stays case-sensitive:
`Paris<CR><LF>` is stored as `Paris` and matches `Paris`, `paris` does not. -/
theorem UserInput_removes_every_CR_LF (q : Question) (text : String) :
    (q.UserInput text).response
        = String.mk (text.data.filter (fun c => c != '\n' && c != '\r'))
    ∧ (q.UserInput text).question = q.question
    ∧ (q.UserInput text).answer = q.answer
    ∧ (q.UserInput text).correct = q.correct
    ∧ (q.UserInput text).asked = q.asked
    ∧ ((∀ c ∈ (specStripTrailingCRLF text).data, c ≠ '\r' ∧ c ≠ '\n') →
        (q.UserInput text).response = specStripTrailingCRLF text)
    ∧ (NewQuestion "capital" "Paris").Ask "Paris\r\n"
        = ({ question := "capital", answer := "Paris", response := "Paris",
             correct := true, asked := true }, 1)
    ∧ (NewQuestion "capital" "Paris").Ask "paris"
        = ({ question := "capital", answer := "Paris", response := "paris",
             correct := false, asked := true }, 0) := by
  refine ⟨UserInput_response q text, rfl, rfl, rfl, rfl, ?_, by decide, by decide⟩
  intro h
  rw [UserInput_response]
  unfold specStripTrailingCRLF at h ⊢
  rw [filter_of_trailing_only text.data h]

/-- C5 witness: the line `Paris<CR><LF>` has CR/LF only at its end. -/
theorem UserInput_removes_every_CR_LF_witness :
    ((NewQuestion "capital" "Paris").UserInput "Paris\r\n").response
      = specStripTrailingCRLF "Paris\r\n" :=
  (UserInput_removes_every_CR_LF (NewQuestion "capital" "Paris") "Paris\r\n").2.2.2.2.2.1
    (by decide)

/-- C6: on a record built by `NewQuestion`, one call of `Ask` sets `asked`,
stores the normalised line, and returns 1 exactly when `correct` is true
afterwards, which is exactly when the stored response equals the expected
answer; otherwise it returns 0 and `correct` is still false. -/
theorem Ask_scores_exact_match (prompt answer text : String) :
    ((NewQuestion prompt answer).Ask text).1.asked = true
    ∧ ((NewQuestion prompt answer).Ask text).1.question = prompt
    ∧ ((NewQuestion prompt answer).Ask text).1.answer = answer
    ∧ ((NewQuestion prompt answer).Ask text).1.response
        = String.mk (text.data.filter (fun c => c != '\n' && c != '\r'))
    ∧ (((NewQuestion prompt answer).Ask text).2 = 1
        ↔ ((NewQuestion prompt answer).Ask text).1.correct = true)
    ∧ (((NewQuestion prompt answer).Ask text).1.correct = true
        ↔ ((NewQuestion prompt answer).Ask text).1.response = answer)
    ∧ (((NewQuestion prompt answer).Ask text).2 = 1
        ∨ (((NewQuestion prompt answer).Ask text).2 = 0
            ∧ ((NewQuestion prompt answer).Ask text).1.correct = false)) := by
  have hr := UserInput_response (NewQuestion prompt answer).askBegin text
  by_cases h : ((NewQuestion prompt answer).askBegin.UserInput text).response = answer
  · have e : (NewQuestion prompt answer).Ask text
        = ({ ((NewQuestion prompt answer).askBegin.UserInput text) with correct := true }, 1) := by
      unfold Question.Ask
      exact if_pos h
    rw [e]
    exact ⟨rfl, rfl, rfl, hr, by simp, by simp [h], Or.inl rfl⟩
  · have e : (NewQuestion prompt answer).Ask text
        = ((NewQuestion prompt answer).askBegin.UserInput text, 0) := by
      unfold Question.Ask
      exact if_neg h
    rw [e]
    refine ⟨rfl, rfl, rfl, hr, ?_, ?_, Or.inr ⟨rfl, rfl⟩⟩
    · constructor
      · intro h0; exact absurd h0 (by simp)
      · intro h0; exact absurd h0 (by simp [Question.UserInput, Question.askBegin, NewQuestion])
    · constructor
      · intro h0; exact absurd h0 (by simp [Question.UserInput, Question.askBegin, NewQuestion])
      · intro h0; exact absurd h0 h

/-! ## `Score` -/

theorem foldl_ShowCorrect (l : List Question) (init : List String) :
    l.foldl (fun out q => out ++ q.ShowCorrect) init
      = init ++ (l.filter (fun q => q.asked && !q.correct)).map
          (fun q => " '" ++ q.question ++ "' is '" ++ q.answer
                      ++ "'; you said '" ++ q.response ++ "'") := by
  induction l generalizing init with
  | nil => simp
  | cons q qs ih =>
    rw [List.foldl_cons, ih]
    by_cases h : (q.asked && !q.correct) = true
    · simp [Question.ShowCorrect, h, List.filter_cons]
    · simp [Question.ShowCorrect, h, List.filter_cons]

/-- C7: when `correct` equals the number of questions (the empty quiz
included), `Score` prints the score line `n out of n` and the full-marks line
and nothing else, whatever `asked` is. -/
theorem Score_full_marks (qz : Quiz) (h : qz.correct = (qz.questions.length : Int)) :
    qz.Score
      = ["You scored " ++ toString (qz.questions.length : Int) ++ " out of "
            ++ toString (qz.questions.length : Int),
         "Congratulations! You scored 100% correct!"] := by
  simp [Quiz.Score, h]

/-- C7 witness: the empty quiz, and a full-marks state whose `asked` is off. -/
theorem Score_full_marks_witness :
    (Quiz.importRows []).Score
        = ["You scored 0 out of 0", "Congratulations! You scored 100% correct!"]
    ∧ Quiz.Score { questions := [NewQuestion "2+2" "4", NewQuestion "3+3" "6"],
                   correct := 2, asked := 0 }
        = ["You scored 2 out of 2", "Congratulations! You scored 100% correct!"] :=
  ⟨(Score_full_marks (Quiz.importRows []) (by decide)).trans (by decide),
   (Score_full_marks { questions := [NewQuestion "2+2" "4", NewQuestion "3+3" "6"],
                       correct := 2, asked := 0 } (by decide)).trans (by decide)⟩

theorem Score_review_eq (qz : Quiz)
    (hfull : qz.correct ≠ (qz.questions.length : Int))
    (hcut : ¬ (qz.asked < (qz.questions.length : Int) ∧ qz.correct = qz.asked)) :
    qz.Score
      = ["You scored " ++ toString qz.correct ++ " out of "
            ++ toString (qz.questions.length : Int)]
        ++ (if qz.asked < (qz.questions.length : Int)
            then ["You only answered " ++ toString qz.asked ++ " questions!"] else [])
        ++ ["These are the correct answers for the ones you got wrong:"]
        ++ (qz.questions.filter (fun q => q.asked && !q.correct)).map
            (fun q => " '" ++ q.question ++ "' is '" ++ q.answer
                        ++ "'; you said '" ++ q.response ++ "'") := by
  by_cases ha : qz.asked < (qz.questions.length : Int)
  · have hne : qz.correct ≠ qz.asked := fun e => hcut ⟨ha, e⟩
    simp [Quiz.Score, Quiz.showReview, hfull, ha, hne, foldl_ShowCorrect]
  · simp [Quiz.Score, Quiz.showReview, hfull, ha, foldl_ShowCorrect]

/-- C8: when `Score` reaches the review (not full marks, and not cut short
with every asked question correct), what follows the heading is, in list
order, one line for each question that was asked and is not correct, built
from its prompt, its expected answer and its response; the other questions
give no line. -/
theorem Score_review_lines (qz : Quiz)
    (hfull : qz.correct ≠ (qz.questions.length : Int))
    (hcut : ¬ (qz.asked < (qz.questions.length : Int) ∧ qz.correct = qz.asked)) :
    qz.Score
      = ["You scored " ++ toString qz.correct ++ " out of "
            ++ toString (qz.questions.length : Int)]
        ++ (if qz.asked < (qz.questions.length : Int)
            then ["You only answered " ++ toString qz.asked ++ " questions!"] else [])
        ++ ["These are the correct answers for the ones you got wrong:"]
        ++ (qz.questions.filter (fun q => q.asked && !q.correct)).map
            (fun q => " '" ++ q.question ++ "' is '" ++ q.answer
                        ++ "'; you said '" ++ q.response ++ "'") :=
  Score_review_eq qz hfull hcut

/-- C8 witness: two questions, answers `4` and `5`, thirty seconds. -/
theorem Score_review_lines_witness :
    Quiz.Score ((Quiz.importRows [("2+2", "4"), ("3+3", "6")]).Play 30
        (responses [{ latency := 2000000000, text := "4\n", timerWinsTie := false, askStarted := true },
                    { latency := 2000000000, text := "5\n", timerWinsTie := false, askStarted := true }])).qz
      = ["You scored 1 out of 2",
         "These are the correct answers for the ones you got wrong:",
         " '3+3' is '6'; you said '5'"] :=
  (Score_review_lines _ (by decide) (by decide)).trans (by decide)

/-! ## `shuffleQuestions` -/

theorem set_set_count (qs : List Question) (i j : Nat) (hi : i < qs.length)
    (hj : j < qs.length) (x : Question) :
    ((qs.set i qs[j]).set j qs[i]).count x = qs.count x := by
  have hj2 : j < (qs.set i qs[j]).length := by simpa using hj
  rw [List.count_set _ _ _ _ hj2, List.count_set _ _ _ _ hi]
  have hget : (qs.set i qs[j])[j] = qs[j] := by
    by_cases e : i = j
    · subst e; simp
    · simp [List.getElem_set_ne e]
  rw [hget]
  have hpos : qs[i] = x → 1 ≤ qs.count x := by
    intro e
    have : x ∈ qs := e ▸ List.getElem_mem hi
    exact List.count_pos_iff.mpr this
  by_cases e1 : qs[i] = x <;> by_cases e2 : qs[j] = x <;> simp [e1, e2]
  all_goals first
    | omega
    | (have hp := hpos e1; omega)

theorem swapQuestions_perm (qs : List Question) (i j : Nat) (hi : i < qs.length)
    (hj : j < qs.length) :
    ∃ r, swapQuestions qs i j = some r ∧ r.Perm qs := by
  refine ⟨(qs.set i qs[j]).set j qs[i], ?_, ?_⟩
  · simp [swapQuestions, List.getElem?_eq_getElem hi, List.getElem?_eq_getElem hj]
  · exact List.perm_iff_count.mpr (set_set_count qs i j hi hj)

theorem applySwaps_perm (pairs : List (Nat × Nat)) (qs : List Question)
    (h : ∀ p ∈ pairs, p.1 < qs.length ∧ p.2 < qs.length) :
    ∃ r, applySwaps pairs qs = some r ∧ r.Perm qs := by
  induction pairs generalizing qs with
  | nil => exact ⟨qs, rfl, List.Perm.refl qs⟩
  | cons p rest ih =>
    obtain ⟨i, j⟩ := p
    have hp := h (i, j) (List.mem_cons_self _ _)
    obtain ⟨r1, e1, p1⟩ := swapQuestions_perm qs i j hp.1 hp.2
    have hrest : ∀ p ∈ rest, p.1 < r1.length ∧ p.2 < r1.length := by
      intro p hmem
      rw [p1.length_eq]
      exact h p (List.mem_cons_of_mem _ hmem)
    obtain ⟨r2, e2, p2⟩ := ih r1 hrest
    exact ⟨r2, by simp [applySwaps, e1, e2], p2.trans p1⟩

theorem shufflePairs_in_range (draw : Nat → Nat) (m : Nat) :
    ∀ p ∈ shufflePairs draw m, 1 ≤ p.1 ∧ p.1 ≤ m ∧ p.2 ≤ p.1 := by
  induction m with
  | zero => simp [shufflePairs]
  | succ m ih =>
    intro p hp
    simp only [shufflePairs, List.mem_cons] at hp
    rcases hp with hp | hp
    · subst hp
      have := Nat.mod_lt (draw (m + 1)) (show 0 < m + 2 by omega)
      simp only
      omega
    · have := ih p hp
      omega

/-- C9: whatever in-range index pairs the swap callback receives, the list it
leaves is a permutation of the original one (same length, same multiset of
records); in particular `shuffleQuestions` succeeds for every sequence of
random draws and permutes the questions, leaving the counters alone. -/
theorem shuffle_is_permutation (qz : Quiz) (pairs : List (Nat × Nat)) (draw : Nat → Nat)
    (hpairs : ∀ p ∈ pairs, p.1 < qz.questions.length ∧ p.2 < qz.questions.length) :
    (∃ qs, applySwaps pairs qz.questions = some qs
        ∧ qs.Perm qz.questions
        ∧ qs.length = qz.questions.length
        ∧ (qs : Multiset Question) = (qz.questions : Multiset Question))
    ∧ (∃ qz2, qz.shuffleQuestions draw = some qz2
        ∧ qz2.questions.Perm qz.questions
        ∧ qz2.questions.length = qz.questions.length
        ∧ (qz2.questions : Multiset Question) = (qz.questions : Multiset Question)
        ∧ qz2.correct = qz.correct ∧ qz2.asked = qz.asked) := by
  constructor
  · obtain ⟨r, e, p⟩ := applySwaps_perm pairs qz.questions hpairs
    exact ⟨r, e, p, p.length_eq, Multiset.coe_eq_coe.mpr p⟩
  · have hr : ∀ p ∈ shufflePairs draw (qz.questions.length - 1),
        p.1 < qz.questions.length ∧ p.2 < qz.questions.length := by
      intro p hp
      have := shufflePairs_in_range draw _ p hp
      omega
    obtain ⟨r, e, p⟩ := applySwaps_perm _ qz.questions hr
    exact ⟨{ qz with questions := r }, by simp [Quiz.shuffleQuestions, e], p, p.length_eq,
      Multiset.coe_eq_coe.mpr p, rfl, rfl⟩

/-- C9 witness: three questions, the swaps `(2, 0)` and `(1, 1)`. -/
theorem shuffle_is_permutation_witness :
    ∃ qs, applySwaps [(2, 0), (1, 1)]
            (Quiz.importRows [("1+1", "2"), ("2+2", "4"), ("3+3", "6")]).questions = some qs
        ∧ qs.Perm (Quiz.importRows [("1+1", "2"), ("2+2", "4"), ("3+3", "6")]).questions
        ∧ qs.length = (Quiz.importRows [("1+1", "2"), ("2+2", "4"), ("3+3", "6")]).questions.length
        ∧ (qs : Multiset Question)
            = ((Quiz.importRows [("1+1", "2"), ("2+2", "4"), ("3+3", "6")]).questions
                : Multiset Question) :=
  (shuffle_is_permutation (Quiz.importRows [("1+1", "2"), ("2+2", "4"), ("3+3", "6")])
    [(2, 0), (1, 1)] (fun _ => 0) (by decide)).1

/-! ## The loop of `Play` -/

theorem importRows_from (rows : List (String × String)) (qz : Quiz) :
    rows.foldl (fun qz row => qz.addQuestion row.1 row.2) qz
      = { qz with questions := qz.questions ++ rows.map (fun row => NewQuestion row.1 row.2) } := by
  induction rows generalizing qz with
  | nil => simp
  | cons row rest ih =>
    rw [List.foldl_cons, ih]
    simp [Quiz.addQuestion]

theorem importRows_eq (rows : List (String × String)) :
    Quiz.importRows rows
      = { questions := rows.map (fun row => NewQuestion row.1 row.2), correct := 0, asked := 0 } := by
  simp [Quiz.importRows, importRows_from]

theorem Ask_score_range (q : Question) (text : String) :
    (q.Ask text).2 = 0 ∨ (q.Ask text).2 = 1 := by
  unfold Question.Ask
  simp only
  split
  · exact Or.inr rfl
  · exact Or.inl rfl

theorem loopBody_stopped (timer : Timer) (input : Nat → Response) (s : PlayState)
    (h : s.stopped = true) : Quiz.loopBody timer input s = s := by
  simp [Quiz.loopBody, h]

theorem loopBody_inv (qz0 : Quiz) (timer : Timer) (input : Nat → Response) (j : Nat)
    (s : PlayState) (h : PlayInv qz0 j s) :
    PlayInv qz0 (j + 1) (Quiz.loopBody timer input s) := by
  obtain ⟨hlen, hidx, hj, hrun, hstop, hasked, hlow, hup, hrest⟩ := h
  by_cases hs : s.stopped = true
  · rw [loopBody_stopped timer input s hs]
    refine ⟨hlen, hidx, by omega, ?_, hstop, hasked, hlow, hup, hrest⟩
    intro h0
    rw [hs] at h0
    exact absurd h0 (by decide)
  · have hs2 : s.stopped = false := by simpa using hs
    have hmin := hrun hs2
    cases hq : s.qz.questions[s.idx]? with
    | none =>
      have e : Quiz.loopBody timer input s = s := by
        simp [Quiz.loopBody, hs2, hq]
      rw [e]
      have hge : s.qz.questions.length ≤ s.idx := List.getElem?_eq_none_iff.mp hq
      refine ⟨hlen, hidx, by omega, ?_, hstop, hasked, hlow, hup, hrest⟩
      intro _
      omega
    | some q =>
      have hlt : s.idx < s.qz.questions.length := by
        rcases List.getElem?_eq_some_iff.mp hq with ⟨h1, _⟩
        exact h1
      cases hc : selectCase timer s.now (input s.idx) with
      | chScore =>
        have e : Quiz.loopBody timer input s
            = { qz := { questions := s.qz.questions.set s.idx (q.runAsk (input s.idx).text).1,
                        correct := s.qz.correct + (q.runAsk (input s.idx).text).2,
                        asked := s.qz.asked + 1 },
                idx := s.idx + 1,
                now := s.now + (input s.idx).latency,
                out := s.out ++ [toString (s.qz.asked + 1) ++ ": "] ++ [q.askPrompt],
                stopped := false } := by
          simp [Quiz.loopBody, hs2, hq, hc]
        rw [e]
        have hsc := Ask_score_range q (input s.idx).text
        simp only [hs2, Bool.false_eq_true, if_false] at hup
        refine ⟨by simpa using hlen, by simp only; omega, by simp only; omega, ?_, ?_, ?_, ?_, ?_, ?_⟩
        · intro _; simp only; omega
        · intro h0; simp at h0
        · simp only; rw [hasked]; push_cast; ring
        · simp only [Question.runAsk]; rcases hsc with h0 | h0 <;> rw [h0] <;> omega
        · simp only [Question.runAsk, Bool.false_eq_true, if_false]
          rcases hsc with h0 | h0 <;> rw [h0] <;> push_cast <;> omega
        · intro i hi
          simp only at hi ⊢
          rw [List.getElem?_set_ne (by omega)]
          exact hrest i (by omega)
      | timerC =>
        have e : Quiz.loopBody timer input s
            = { qz := { questions :=
                          if (input s.idx).askStarted then s.qz.questions.set s.idx q.askBegin
                          else s.qz.questions,
                        correct := s.qz.correct,
                        asked := s.qz.asked + 1 },
                idx := s.idx + 1,
                now := max timer.fireAt s.now,
                out := (if (input s.idx).askStarted
                        then s.out ++ [toString (s.qz.asked + 1) ++ ": "] ++ [q.askPrompt]
                        else s.out ++ [toString (s.qz.asked + 1) ++ ": "])
                          ++ ["\nSorry, your time has run out!\n"],
                stopped := true } := by
          simp [Quiz.loopBody, hs2, hq, hc]
        rw [e]
        simp only [hs2, Bool.false_eq_true, if_false] at hup
        refine ⟨?_, by simp only; omega, by simp only; omega, ?_, ?_, ?_, ?_, ?_, ?_⟩
        · simp only; split <;> simpa using hlen
        · intro h0; simp at h0
        · intro _; simp only; omega
        · simp only; rw [hasked]; push_cast; ring
        · exact hlow
        · simp only [if_true]; push_cast; omega
        · intro i hi
          simp only at hi ⊢
          split
          · rw [List.getElem?_set_ne (by omega)]
            exact hrest i (by omega)
          · exact hrest i (by omega)

theorem playAfter_succ (qz : Quiz) (timeLimit : Int) (input : Nat → Response) (n : Nat) :
    qz.playAfter timeLimit input (n + 1)
      = Quiz.loopBody (qz.playTimer timeLimit) input (qz.playAfter timeLimit input n) := by
  unfold Quiz.playAfter
  exact Function.iterate_succ_apply' _ _ _

theorem playStart_fields (qz : Quiz) (timeLimit : Int) :
    (qz.playStart timeLimit).qz = qz ∧ (qz.playStart timeLimit).idx = 0
    ∧ (qz.playStart timeLimit).now = 0 ∧ (qz.playStart timeLimit).stopped = false := by
  simp [Quiz.playStart]

theorem playAfter_inv (qz : Quiz) (timeLimit : Int) (input : Nat → Response) (n : Nat) :
    PlayInv qz n (qz.playAfter timeLimit input n) := by
  induction n with
  | zero =>
    obtain ⟨h1, h2, _, h4⟩ := playStart_fields qz timeLimit
    have e : qz.playAfter timeLimit input 0 = qz.playStart timeLimit := rfl
    rw [e]
    refine ⟨by rw [h1], by rw [h2]; omega, by rw [h2], ?_, ?_, by rw [h1, h2]; simp,
      by rw [h1], by rw [h1, h2, h4]; simp, by intro i _; rw [h1]⟩
    · intro _; rw [h2]; simp
    · intro h0; rw [h4] at h0; exact absurd h0 (by decide)
  | succ n ih =>
    rw [playAfter_succ]
    exact loopBody_inv qz _ input n _ ih

theorem playAfter_stopped_stays (qz : Quiz) (timeLimit : Int) (input : Nat → Response)
    (k : Nat) (h : (qz.playAfter timeLimit input k).stopped = true) (m : Nat) :
    qz.playAfter timeLimit input (k + m) = qz.playAfter timeLimit input k := by
  induction m with
  | zero => rfl
  | succ m ih =>
    rw [← Nat.add_assoc, playAfter_succ, ih, loopBody_stopped _ _ _ h]

theorem loopBody_timerC (timer : Timer) (input : Nat → Response) (s : PlayState) (q : Question)
    (hs : s.stopped = false) (hq : s.qz.questions[s.idx]? = some q)
    (hc : selectCase timer s.now (input s.idx) = SelectCase.timerC) :
    (Quiz.loopBody timer input s).stopped = true
    ∧ (Quiz.loopBody timer input s).qz.asked = s.qz.asked + 1
    ∧ (Quiz.loopBody timer input s).qz.correct = s.qz.correct
    ∧ (Quiz.loopBody timer input s).idx = s.idx + 1 := by
  simp [Quiz.loopBody, hs, hq, hc]

theorem playTimer_nonpositive (qz : Quiz) (timeLimit : Int) (hl : timeLimit ≤ 0)
    (hrange : -9223372036 ≤ timeLimit) : (qz.playTimer timeLimit).fireAt = 0 := by
  have hn : ¬ timeLimit > 0 := by omega
  have hmod : (timeLimit * 1000000000 + 2 ^ 63) % 2 ^ 64 = timeLimit * 1000000000 + 2 ^ 63 :=
    Int.emod_eq_of_lt (by omega) (by omega)
  simp only [Quiz.playTimer, if_neg hn, NewTimer, wrapInt64, Second, hmod]
  omega

/-- With a limit that is zero or negative (and whose duration fits 64 bits) the
timer of `Play` has fired when the first `select` starts: if the first answer
takes any time at all, `Play` leaves its loop during the first question. -/
theorem Play_nonpositive_limit_stops_at_once (qz : Quiz) (timeLimit : Int)
    (input : Nat → Response) (q0 : Question) (rest : List Question)
    (hq : qz.questions = q0 :: rest) (hl : timeLimit ≤ 0) (hrange : -9223372036 ≤ timeLimit)
    (hlat : 0 < (input 0).latency) :
    (qz.Play timeLimit input).stopped = true
    ∧ (qz.Play timeLimit input).qz.asked = qz.asked + 1
    ∧ (qz.Play timeLimit input).qz.correct = qz.correct := by
  obtain ⟨h1, h2, h3, h4⟩ := playStart_fields qz timeLimit
  have hfire := playTimer_nonpositive qz timeLimit hl hrange
  have hsel : selectCase (qz.playTimer timeLimit) (qz.playStart timeLimit).now
      (input (qz.playStart timeLimit).idx) = SelectCase.timerC := by
    rw [h2, h3]
    simp only [selectCase, hfire]
    have h5 : ¬ (0 + (input 0).latency < max 0 0) := by simp
    have h6 : max 0 0 < 0 + (input 0).latency := by simpa using hlat
    rw [if_neg h5, if_pos h6]
  have hget : (qz.playStart timeLimit).qz.questions[(qz.playStart timeLimit).idx]? = some q0 := by
    rw [h1, h2, hq]; simp
  obtain ⟨s1, s2, s3, _⟩ := loopBody_timerC _ input (qz.playStart timeLimit) q0 h4 hget hsel
  have e1 : qz.playAfter timeLimit input 1
      = Quiz.loopBody (qz.playTimer timeLimit) input (qz.playStart timeLimit) := rfl
  have e : qz.Play timeLimit input = qz.playAfter timeLimit input 1 := by
    have := playAfter_stopped_stays qz timeLimit input 1 (by rw [e1]; exact s1) rest.length
    unfold Quiz.Play
    rw [hq, List.length_cons, Nat.add_comm]
    exact this
  rw [e, e1]
  exact ⟨s1, by rw [s2, h1], by rw [s3, h1]⟩

/-- C1 (code): two questions, limit 0, each answer typed in two seconds. The
timer created with a zero duration has fired before the first answer arrives:
`Play` prints the time-out notice during question 1 and returns with
`asked = 1` and `correct = 0`, the second question never being asked. -/
theorem Play_limit_zero_times_out :
    ((Quiz.importRows [("2+2", "4"), ("3+3", "6")]).Play 0
        (responses [{ latency := 2000000000, text := "4\n", timerWinsTie := false, askStarted := true },
                    { latency := 2000000000, text := "6\n", timerWinsTie := false, askStarted := true }]))
      = { qz := { questions := [{ question := "2+2", answer := "4", response := "",
                                  correct := false, asked := true },
                                NewQuestion "3+3" "6"],
                  correct := 0, asked := 1 },
          idx := 1, now := 0,
          out := ["Please answer the following 2 questions:\n", "1: ", "2+2 = ? ",
                  "\nSorry, your time has run out!\n"],
          stopped := true } := by
  decide

/-- C2 (code): three questions, five seconds, every answer right and typed in
two seconds, so that the timer fires while the third answer is awaited. `Play`
has already counted the third question: it returns `asked = 3`, `correct = 2`,
and `Score` prints no `You only answered 2 questions!` line and no
`all correct` line, and lists the third question as wrong with an empty
response. -/
theorem Play_timeout_counts_question_in_flight :
    ((Quiz.importRows [("1+1", "2"), ("2+2", "4"), ("3+3", "6")]).Play 5
        (responses [{ latency := 2000000000, text := "2\n", timerWinsTie := false, askStarted := true },
                    { latency := 2000000000, text := "4\n", timerWinsTie := false, askStarted := true },
                    { latency := 2000000000, text := "6\n", timerWinsTie := false, askStarted := true }])).qz
      = { questions := [{ question := "1+1", answer := "2", response := "2",
                          correct := true, asked := true },
                        { question := "2+2", answer := "4", response := "4",
                          correct := true, asked := true },
                        { question := "3+3", answer := "6", response := "",
                          correct := false, asked := true }],
          correct := 2, asked := 3 }
    ∧ Quiz.Score ((Quiz.importRows [("1+1", "2"), ("2+2", "4"), ("3+3", "6")]).Play 5
        (responses [{ latency := 2000000000, text := "2\n", timerWinsTie := false, askStarted := true },
                    { latency := 2000000000, text := "4\n", timerWinsTie := false, askStarted := true },
                    { latency := 2000000000, text := "6\n", timerWinsTie := false, askStarted := true }])).qz
      = ["You scored 2 out of 3",
         "These are the correct answers for the ones you got wrong:",
         " '3+3' is '6'; you said ''"] := by
  decide

/-- C3: from a freshly imported quiz, if the loop reaches its `k`-th question
and the `select` of that iteration takes the timer case, `Play` ends stopped
with `asked = k`, and every question after position `k` is still the record
`NewQuestion` built: not asked, no response, not correct. -/
theorem Play_timeout_during_question (rows : List (String × String)) (timeLimit : Int)
    (input : Nat → Response) (k : Nat) (hk : 1 ≤ k) (hlen : k ≤ rows.length)
    (hreach : ((Quiz.importRows rows).playAfter timeLimit input (k - 1)).stopped = false)
    (hfire : selectCase ((Quiz.importRows rows).playTimer timeLimit)
        ((Quiz.importRows rows).playAfter timeLimit input (k - 1)).now (input (k - 1))
          = SelectCase.timerC) :
    ((Quiz.importRows rows).Play timeLimit input).stopped = true
    ∧ ((Quiz.importRows rows).Play timeLimit input).qz.asked = (k : Int)
    ∧ ((Quiz.importRows rows).Play timeLimit input).qz.questions.length = rows.length
    ∧ ∀ i, k ≤ i →
        ((Quiz.importRows rows).Play timeLimit input).qz.questions[i]?
            = (rows[i]?).map (fun row => NewQuestion row.1 row.2)
        ∧ ∀ q, ((Quiz.importRows rows).Play timeLimit input).qz.questions[i]? = some q →
            q.asked = false ∧ q.response = "" ∧ q.correct = false := by
  have hq0 : (Quiz.importRows rows).questions = rows.map (fun row => NewQuestion row.1 row.2) := by
    rw [importRows_eq]
  have ha0 : (Quiz.importRows rows).asked = 0 := by rw [importRows_eq]
  have hn0 : (Quiz.importRows rows).questions.length = rows.length := by rw [hq0]; simp
  obtain ⟨_, _, _, hrun, _, hasked, _, _, hrest⟩ :=
    playAfter_inv (Quiz.importRows rows) timeLimit input (k - 1)
  have hidx : ((Quiz.importRows rows).playAfter timeLimit input (k - 1)).idx = k - 1 := by
    rw [hrun hreach, hn0]; omega
  have hlt : k - 1 < (Quiz.importRows rows).questions.length := by rw [hn0]; omega
  have hget : ((Quiz.importRows rows).playAfter timeLimit input (k - 1)).qz.questions[
      ((Quiz.importRows rows).playAfter timeLimit input (k - 1)).idx]?
        = some ((Quiz.importRows rows).questions[k - 1]) := by
    rw [hrest _ (Nat.le_refl _), hidx]
    exact List.getElem?_eq_getElem hlt
  have hfire2 : selectCase ((Quiz.importRows rows).playTimer timeLimit)
      ((Quiz.importRows rows).playAfter timeLimit input (k - 1)).now
      (input ((Quiz.importRows rows).playAfter timeLimit input (k - 1)).idx)
        = SelectCase.timerC := by
    rw [hidx]; exact hfire
  obtain ⟨s1, s2, _, _⟩ := loopBody_timerC _ input _ _ hreach hget hfire2
  have ek : (Quiz.importRows rows).playAfter timeLimit input k
      = Quiz.loopBody ((Quiz.importRows rows).playTimer timeLimit) input
          ((Quiz.importRows rows).playAfter timeLimit input (k - 1)) := by
    have := playAfter_succ (Quiz.importRows rows) timeLimit input (k - 1)
    rwa [Nat.sub_add_cancel hk] at this
  have hstop : ((Quiz.importRows rows).playAfter timeLimit input k).stopped = true := by
    rw [ek]; exact s1
  have e : (Quiz.importRows rows).Play timeLimit input
      = (Quiz.importRows rows).playAfter timeLimit input k := by
    have := playAfter_stopped_stays (Quiz.importRows rows) timeLimit input k hstop
      (rows.length - k)
    unfold Quiz.Play
    rw [hn0]
    rwa [Nat.add_sub_cancel' hlen] at this
  obtain ⟨klen, _, _, _, _, kasked, _, _, krest⟩ :=
    playAfter_inv (Quiz.importRows rows) timeLimit input k
  have kidx : ((Quiz.importRows rows).playAfter timeLimit input k).idx = k := by
    rw [ek, (loopBody_timerC _ input _ _ hreach hget hfire2).2.2.2, hidx]; omega
  have hq : ∀ i, k ≤ i →
      ((Quiz.importRows rows).playAfter timeLimit input k).qz.questions[i]?
        = (rows[i]?).map (fun row => NewQuestion row.1 row.2) := by
    intro i hi
    rw [krest i (by rw [kidx]; exact hi), hq0, List.getElem?_map]
  rw [e]
  refine ⟨hstop, ?_, by rw [klen, hn0], ?_⟩
  · rw [kasked, ha0, kidx]; simp
  · intro i hi
    refine ⟨hq i hi, ?_⟩
    intro q hqi
    rw [hq i hi] at hqi
    cases hr : rows[i]? with
    | none => rw [hr] at hqi; simp at hqi
    | some row =>
      rw [hr] at hqi
      simp only [Option.map_some', Option.some.injEq] at hqi
      subst hqi
      exact ⟨rfl, rfl, rfl⟩

/-- C3 witness: three questions, five seconds, answers typed in two and four
seconds: the timer fires while the second question is awaiting its answer. -/
theorem Play_timeout_during_question_witness :
    ((Quiz.importRows [("1+1", "2"), ("2+2", "4"), ("3+3", "6")]).Play 5
        (responses [{ latency := 2000000000, text := "2\n", timerWinsTie := false, askStarted := true },
                    { latency := 4000000000, text := "4\n", timerWinsTie := false, askStarted := true }])).qz.asked
      = ((2 : Nat) : Int) :=
  (Play_timeout_during_question [("1+1", "2"), ("2+2", "4"), ("3+3", "6")] 5
    (responses [{ latency := 2000000000, text := "2\n", timerWinsTie := false, askStarted := true },
                { latency := 4000000000, text := "4\n", timerWinsTie := false, askStarted := true }])
    2 (by decide) (by decide) (by decide) (by decide)).2.1

theorem head_append (a b : String) (c : Char) (h : a.data.head? = some c) :
    (a ++ b).data.head? = some c := by
  rw [String.data_append]
  cases hd : a.data with
  | nil => rw [hd] at h; simp at h
  | cons x xs => rw [hd] at h; simpa using h

theorem ne_of_head (m s : String) (c d : Char) (hm : m.data.head? = some c)
    (hs : s.data.head? = some d) (h : c ≠ d) : m ≠ s := by
  intro e
  subst e
  rw [hm] at hs
  exact h (Option.some.inj hs)

theorem allCorrect_ne_of_head (s : String) (d : Char) (hs : s.data.head? = some d)
    (h : 'O' ≠ d) : "Of the ones you were asked, you got all correct!" ≠ s :=
  ne_of_head "Of the ones you were asked, you got all correct!" s 'O' d rfl hs h

theorem Play_final_counters (qz : Quiz) (timeLimit : Int) (input : Nat → Response)
    (ha : qz.asked = 0) (hc : qz.correct = 0) :
    (qz.Play timeLimit input).qz.questions.length = qz.questions.length
    ∧ (qz.Play timeLimit input).qz.correct ≤ (qz.Play timeLimit input).qz.asked
    ∧ (qz.Play timeLimit input).qz.asked ≤ (qz.questions.length : Int)
    ∧ ((qz.Play timeLimit input).qz.asked < (qz.questions.length : Int) →
        (qz.Play timeLimit input).qz.correct < (qz.Play timeLimit input).qz.asked) := by
  obtain ⟨hlen, hidx, _, hrun, _, hasked, _, hup, _⟩ :=
    playAfter_inv qz timeLimit input qz.questions.length
  unfold Quiz.Play
  rw [ha] at hasked
  rw [hc] at hup
  refine ⟨hlen, ?_, by omega, ?_⟩
  · split at hup <;> omega
  · intro hlt
    cases hs : (qz.playAfter timeLimit input qz.questions.length).stopped with
    | false =>
      have := hrun hs
      simp only [Nat.min_self] at this
      omega
    | true =>
      rw [hs] at hup
      simp only [if_true] at hup
      omega

/-- C4: from a quiz with `asked = correct = 0`, after any number of
iterations of the loop of `Play`, and when `Play` returns,
`0 <= correct <= asked <= len(questions)`, the number of questions being the
one `Play` started with. -/
theorem Play_counters_ordered (qz : Quiz) (timeLimit : Int) (input : Nat → Response)
    (ha : qz.asked = 0) (hc : qz.correct = 0) (n : Nat) :
    (0 ≤ (qz.playAfter timeLimit input n).qz.correct
      ∧ (qz.playAfter timeLimit input n).qz.correct ≤ (qz.playAfter timeLimit input n).qz.asked
      ∧ (qz.playAfter timeLimit input n).qz.asked
          ≤ ((qz.playAfter timeLimit input n).qz.questions.length : Int)
      ∧ (qz.playAfter timeLimit input n).qz.questions.length = qz.questions.length)
    ∧ (0 ≤ (qz.Play timeLimit input).qz.correct
      ∧ (qz.Play timeLimit input).qz.correct ≤ (qz.Play timeLimit input).qz.asked
      ∧ (qz.Play timeLimit input).qz.asked
          ≤ ((qz.Play timeLimit input).qz.questions.length : Int)
      ∧ (qz.Play timeLimit input).qz.questions.length = qz.questions.length) := by
  have key : ∀ m,
      0 ≤ (qz.playAfter timeLimit input m).qz.correct
      ∧ (qz.playAfter timeLimit input m).qz.correct ≤ (qz.playAfter timeLimit input m).qz.asked
      ∧ (qz.playAfter timeLimit input m).qz.asked
          ≤ ((qz.playAfter timeLimit input m).qz.questions.length : Int)
      ∧ (qz.playAfter timeLimit input m).qz.questions.length = qz.questions.length := by
    intro m
    obtain ⟨hlen, hidx, _, _, _, hasked, hlow, hup, _⟩ := playAfter_inv qz timeLimit input m
    rw [ha] at hasked
    rw [hc] at hup hlow
    refine ⟨hlow, ?_, by rw [hlen]; omega, hlen⟩
    split at hup <;> omega
  exact ⟨key n, key qz.questions.length⟩

/-- C4 witness: two questions, thirty seconds, one right and one wrong answer,
after the first iteration. -/
theorem Play_counters_ordered_witness :
    ((Quiz.importRows [("2+2", "4"), ("3+3", "6")]).playAfter 30
        (responses [{ latency := 2000000000, text := "4\n", timerWinsTie := false, askStarted := true },
                    { latency := 2000000000, text := "5\n", timerWinsTie := false, askStarted := true }])
        1).qz.correct
      ≤ ((Quiz.importRows [("2+2", "4"), ("3+3", "6")]).playAfter 30
        (responses [{ latency := 2000000000, text := "4\n", timerWinsTie := false, askStarted := true },
                    { latency := 2000000000, text := "5\n", timerWinsTie := false, askStarted := true }])
        1).qz.asked :=
  (Play_counters_ordered (Quiz.importRows [("2+2", "4"), ("3+3", "6")]) 30
    (responses [{ latency := 2000000000, text := "4\n", timerWinsTie := false, askStarted := true },
                { latency := 2000000000, text := "5\n", timerWinsTie := false, askStarted := true }])
    (by decide) (by decide) 1).1.2.1

/-- C10: from a quiz with `asked = correct = 0`, if `Play` returns with
`asked < len(questions)` then `correct < asked` strictly, the question in
flight at the time-out being counted in `asked` only; so `Score` never prints
`Of the ones you were asked, you got all correct!` on what `Play` returns. -/
theorem Play_cut_short_never_all_correct (qz : Quiz) (timeLimit : Int)
    (input : Nat → Response) (ha : qz.asked = 0) (hc : qz.correct = 0) :
    ((qz.Play timeLimit input).qz.asked < ((qz.Play timeLimit input).qz.questions.length : Int) →
        (qz.Play timeLimit input).qz.correct < (qz.Play timeLimit input).qz.asked)
    ∧ "Of the ones you were asked, you got all correct!" ∉ (qz.Play timeLimit input).qz.Score := by
  obtain ⟨hlen, _, _, hstrict⟩ := Play_final_counters qz timeLimit input ha hc
  rw [← hlen] at hstrict
  refine ⟨hstrict, ?_⟩
  have hY : ∀ x y : String, "Of the ones you were asked, you got all correct!"
      ≠ "You scored " ++ x ++ " out of " ++ y := by
    intro x y
    refine allCorrect_ne_of_head _ 'Y' ?_ (by decide)
    repeat apply head_append
    rfl
  by_cases hfull : (qz.Play timeLimit input).qz.correct
      = ((qz.Play timeLimit input).qz.questions.length : Int)
  · have e : (qz.Play timeLimit input).qz.Score
        = ["You scored " ++ toString ((qz.Play timeLimit input).qz.questions.length : Int)
              ++ " out of " ++ toString ((qz.Play timeLimit input).qz.questions.length : Int),
           "Congratulations! You scored 100% correct!"] := by
      simp [Quiz.Score, hfull]
    rw [e]
    intro hmem
    simp only [List.mem_cons, List.mem_singleton, List.not_mem_nil, or_false] at hmem
    rcases hmem with h | h
    · exact hY _ _ h
    · exact absurd h (by decide)
  · have hcut : ¬ ((qz.Play timeLimit input).qz.asked
          < ((qz.Play timeLimit input).qz.questions.length : Int)
        ∧ (qz.Play timeLimit input).qz.correct = (qz.Play timeLimit input).qz.asked) := by
      intro h
      have := hstrict h.1
      omega
    rw [Score_review_eq _ hfull hcut]
    intro hmem
    simp only [List.mem_append, List.mem_singleton, List.mem_map] at hmem
    rcases hmem with ((h | h) | h) | h
    · exact hY _ _ h
    · split at h
      · simp only [List.mem_singleton] at h
        revert h
        refine allCorrect_ne_of_head _ 'Y' ?_ (by decide)
        repeat apply head_append
        rfl
      · simp at h
    · exact absurd h (by decide)
    · obtain ⟨q, _, h⟩ := h
      revert h
      apply Ne.symm
      refine allCorrect_ne_of_head _ ' ' ?_ (by decide)
      repeat apply head_append
      rfl

/-- C10 witness: three questions, five seconds, answers typed in two and four
seconds: `Play` returns with `asked = 2 < 3` and `correct = 1`. -/
theorem Play_cut_short_never_all_correct_witness :
    ((Quiz.importRows [("1+1", "2"), ("2+2", "4"), ("3+3", "6")]).Play 5
        (responses [{ latency := 2000000000, text := "2\n", timerWinsTie := false, askStarted := true },
                    { latency := 4000000000, text := "4\n", timerWinsTie := false, askStarted := true }])).qz.correct
      < ((Quiz.importRows [("1+1", "2"), ("2+2", "4"), ("3+3", "6")]).Play 5
        (responses [{ latency := 2000000000, text := "2\n", timerWinsTie := false, askStarted := true },
                    { latency := 4000000000, text := "4\n", timerWinsTie := false, askStarted := true }])).qz.asked :=
  (Play_cut_short_never_all_correct (Quiz.importRows [("1+1", "2"), ("2+2", "4"), ("3+3", "6")]) 5
    (responses [{ latency := 2000000000, text := "2\n", timerWinsTie := false, askStarted := true },
                { latency := 4000000000, text := "4\n", timerWinsTie := false, askStarted := true }])
    (by decide) (by decide)).1 (by decide)

end Quiz01
